import Mathlib

/-
  Verification development for the GP tournament tracker.

  The definitions below are shallow embeddings of the Python source:
    - db.py                       (save_tournament, _ranking_priority,
                                   recalculate_rankings, get_rank_changes,
                                   _store_ranking_snapshot)
    - backend/services/rankings.py (_sort_key)
    - backend/scraper/client.py    (_extract_round_count)
    - chess_results.py             (ChessResultsScraper._request)
    - result_validator.py          (ResultValidator._determine_result_status)

  Machine integers are modelled as Nat/Int; Python float arithmetic in the
  ranking engine (sums of small integer TPRs divided by 2, 3 or 4, then
  round()) is modelled exactly over the integers, with round() modelled as
  round-half-to-even, which agrees with CPython on these magnitudes.
  SQL queries are modelled as explicit list traversals in rowid order,
  matching SQLite semantics for the statements in the source.
-/

namespace GP

/-! ## Generic string and list helpers (ASCII semantics of SQLite and Python) -/

/-- ASCII whitespace recognised by Python regex member class and str.strip. -/
def isPySpace (c : Char) : Bool :=
  c == ' ' || c == '\t' || c == '\n' || c == '\r' || c == '\x0b' || c == '\x0c'

/-- Lowercase a character list; Char.toLower is ASCII-only, matching SQLite
lower() and the ASCII behaviour of Python str.lower on the inputs involved. -/
def lowerCs (s : List Char) : List Char := s.map Char.toLower

/-- Python str.strip: drop leading and trailing whitespace. -/
def stripCs (s : List Char) : List Char :=
  ((s.dropWhile isPySpace).reverse.dropWhile isPySpace).reverse

/-- Substring test, the semantics of the Python `in` operator on strings. -/
def hasInfix (pat : List Char) : List Char → Bool
  | [] => pat.isEmpty
  | c :: cs => pat.isPrefixOf (c :: cs) || hasInfix pat cs

/-- Substring test on String values. -/
def strContains (pat s : String) : Bool := hasInfix pat.toList s.toList

/-- Numeric value of a digit run. -/
def digitsVal (ds : List Char) : Nat :=
  ds.foldl (fun a c => 10 * a + (c.toNat - 48)) 0

/-- Digit-run parser: all characters must be digits and the run nonempty. -/
def digitsToNat (ds : List Char) : Option Nat :=
  if ds.isEmpty then none
  else if ds.all Char.isDigit then some (digitsVal ds) else none

/-- Python int(str): strip whitespace, optional sign, then a digit run. -/
def pyInt (s : List Char) : Option Int :=
  match stripCs s with
  | '+' :: ds => (digitsToNat ds).map (fun n => (n : Int))
  | '-' :: ds => (digitsToNat ds).map (fun n => -(n : Int))
  | ds => (digitsToNat ds).map (fun n => (n : Int))

/-- SQL COALESCE of two nullable values. -/
def coalesce {α : Type} (a b : Option α) : Option α :=
  match a with
  | some x => some x
  | none => b

/-- Stable insertion into a list sorted by the relation le: the new element
goes after every prefix element y with le y x, mirroring the stability of
Python list.sort and sorted(). -/
def insertSorted {α : Type} (le : α → α → Bool) (x : α) : List α → List α
  | [] => [x]
  | y :: ys => if le y x then y :: insertSorted le x ys else x :: y :: ys

/-- Stable sort by the relation le (Python sorted with a key). -/
def sortL {α : Type} (le : α → α → Bool) : List α → List α
  | [] => []
  | x :: xs => insertSorted le x (sortL le xs)

/-- CPython round() on an exact quotient s/d for d > 0: round half to even. -/
def pythonRoundDiv (s : Int) (d : Int) : Int :=
  let f := Int.fdiv s d
  let r := s - d * f
  if 2 * r < d then f
  else if d < 2 * r then f + 1
  else if f % 2 = 0 then f else f + 1

/-! ## C5: tournament metadata upsert (db.py save_tournament, ON CONFLICT) -/

structure TournamentMeta where
  name : String
  start_date : Option String
  end_date : Option String
  short_name : Option String
  location : Option String
  rounds : Option Int
deriving Repr, DecidableEq

/-- The INSERT ... ON CONFLICT(id) DO UPDATE statement of save_tournament:
when a row for the id exists, name is overwritten unconditionally and the
remaining fields take COALESCE(excluded.value, existing.value). -/
def upsertTournament (existing : Option TournamentMeta) (incoming : TournamentMeta) :
    TournamentMeta :=
  match existing with
  | none => incoming
  | some old =>
    { name := incoming.name
      start_date := coalesce incoming.start_date old.start_date
      end_date := coalesce incoming.end_date old.end_date
      short_name := coalesce incoming.short_name old.short_name
      location := coalesce incoming.location old.location
      rounds := coalesce incoming.rounds old.rounds }

/-- Modelled from the words of the claim for comparison: every field,
including name, keeps the existing non-null value and accepts the new
value only when the existing one is null. -/
def c5ClaimedUpsert (existing : Option TournamentMeta) (incoming : TournamentMeta) :
    TournamentMeta :=
  match existing with
  | none => incoming
  | some old =>
    { name := old.name
      start_date := coalesce old.start_date incoming.start_date
      end_date := coalesce old.end_date incoming.end_date
      short_name := coalesce old.short_name incoming.short_name
      location := coalesce old.location incoming.location
      rounds := coalesce old.rounds incoming.rounds }

/-! ## C7: mirror failover (chess_results.py ChessResultsScraper._request) -/

/-- The exception raised after the mirror loop: a message naming the path,
chained (via raise ... from) to the exception recorded in last_exc. -/
structure MirrorError (ε : Type) where
  message : String
  cause : Option ε
deriving Repr, DecidableEq

/-- The loop body of _request: walk the configured base hosts in order,
return the first successful response, remember the latest failure in
last_exc, and raise one error once every host has been tried. -/
def tryMirrors {ε ρ : Type} (path : String) :
    List (Except ε ρ) → Option ε → Except (MirrorError ε) ρ
  | [], last => .error ⟨"All chess-results mirrors failed for " ++ path, last⟩
  | .ok r :: _, _ => .ok r
  | .error e :: rest, _ => tryMirrors path rest (some e)

/-- _request for a given path, with the transport outcome of each base host
supplied in configuration order. -/
def mirrorRequest {ε ρ : Type} (path : String) (outcomes : List (Except ε ρ)) :
    Except (MirrorError ε) ρ :=
  tryMirrors path outcomes none

/-- The per-host causes of one fetch, in host order (what an aggregated
error would have to enumerate). -/
def perHostCauses {ε ρ : Type} (outcomes : List (Except ε ρ)) : List ε :=
  outcomes.filterMap (fun o => match o with | .error e => some e | .ok _ => none)

/-- The cause remembered by the loop: the error of the last failing host. -/
def lastCause {ε ρ : Type} (outcomes : List (Except ε ρ)) : Option ε :=
  outcomes.foldl (fun acc o => match o with | .error e => some e | .ok _ => acc) none

/-! ## C8: result status heuristic (result_validator.py) -/

/-- True when one round-result cell carries a forfeit marker: the code
tests the substrings plus, minus and the letter K. -/
def anyForfeitMarker (gameResults : List String) : Bool :=
  gameResults.any (fun r => strContains "+" r || strContains "-" r || strContains "K" r)

/-- ResultValidator._determine_result_status. -/
def determineResultStatus (gameResults : List String) (resultsText : String) : String :=
  if anyForfeitMarker gameResults then "walkover"
  else if strContains "not paired" resultsText then "incomplete"
  else if hasInfix "withdrawn".toList (lowerCs resultsText.toList) then "withdrawn"
  else "valid"

/-- Modelled from the words of the claim for comparison: the same ladder
but with only the plus and minus forfeit markers. -/
def c8ClaimedStatus (gameResults : List String) (resultsText : String) : String :=
  if gameResults.any (fun r => strContains "+" r || strContains "-" r) then "walkover"
  else if strContains "not paired" resultsText then "incomplete"
  else if hasInfix "withdrawn".toList (lowerCs resultsText.toList) then "withdrawn"
  else "valid"

/-! ## C4, C10: player identity resolution (db.py save_tournament) -/

/-- A row of the players table, carried in rowid order. -/
structure PRec where
  pid : Nat
  fide_id : Option String
  name : String
  federation : Option String
deriving Repr, DecidableEq

/-- The players table plus the next rowid SQLite would assign. -/
structure PlayersState where
  players : List PRec
  next_id : Nat
deriving Repr, DecidableEq

/-- Python truthiness of the incoming fide id: None and the empty string
are falsy. -/
def truthyFide (o : Option String) : Bool :=
  match o with
  | none => false
  | some s => s != ""

/-- The SQL predicate fide_id IS NULL OR fide_id = a blank string. -/
def blankFide (o : Option String) : Bool :=
  match o with
  | none => true
  | some s => s == ""

/-- SELECT id FROM players WHERE fide_id = ? (first row in rowid order). -/
def findByFide (ps : List PRec) (fid : String) : Option PRec :=
  ps.find? (fun p => p.fide_id == some fid)

/-- SELECT id FROM players WHERE lower(name) = lower(?) AND (fide_id IS
NULL OR fide_id = a blank string). -/
def findByNameNoFide (ps : List PRec) (nm : String) : Option PRec :=
  ps.find? (fun p => lowerCs p.name.toList == lowerCs nm.toList && blankFide p.fide_id)

/-- UPDATE players SET fide_id = ? WHERE id = ?. -/
def setFide (ps : List PRec) (i : Nat) (fid : String) : List PRec :=
  ps.map (fun p => if p.pid == i then { p with fide_id := some fid } else p)

/-- The per-result player resolution of save_tournament: (1) lookup by a
truthy fide id, (2) case-insensitive name lookup among players without a
fide id, backfilling a truthy incoming fide id, (3) insert a new player. -/
def resolvePlayer (st : PlayersState) (fide : Option String) (nm : String)
    (fed : Option String) : PlayersState × Nat :=
  let byFide : Option PRec :=
    if truthyFide fide then findByFide st.players (fide.getD "") else none
  match byFide with
  | some p => (st, p.pid)
  | none =>
    match findByNameNoFide st.players nm with
    | some p =>
      (if truthyFide fide then
        { st with players := setFide st.players p.pid (fide.getD "") }
       else st, p.pid)
    | none =>
      ({ players := st.players ++ [⟨st.next_id, fide, nm, fed⟩],
         next_id := st.next_id + 1 }, st.next_id)

/-! ## C1, C2, C3: ranking engine (db.py) and backend sort key -/

/-- One row of db.get_all_results for a player: federation and result
status as stored, the TPR, and the player and tournament attributes the
recalculation copies into the ranking record. The source can also hold a
null TPR, which would make the Python recalculation raise; such rows are
outside the modelled domain. -/
structure RRow where
  federation : Option String
  result_status : Option String
  tpr : Int
  player_name : String
  player_fide : Option String
  player_rating : Option Int
  tournament_name : String
deriving Repr, DecidableEq

/-- get_all_results normalises a null or blank stored status to valid
before the recalculation reads it. -/
def normStatus (s : Option String) : String :=
  match s with
  | none => "valid"
  | some t => if t == "" then "valid" else t

/-- The filter of recalculate_rankings: federation equals KEN and the
(normalised) status is valid. The additional status-is-None disjunct in
the source is unreachable after normalisation. -/
def isValidResult (r : RRow) : Bool :=
  r.federation == some "KEN" && normStatus r.result_status == "valid"

/-- Descending stable order on rows by TPR; the Python sort key maps a
null or zero TPR to 0, which on integer TPRs is the TPR itself. -/
def sortRowsDesc (rows : List RRow) : List RRow :=
  sortL (fun a b => decide (b.tpr < a.tpr)) rows

/-- Integer sum of a list. -/
def sumInts (l : List Int) : Int := l.foldl (· + ·) 0

/-- One row of the player_rankings table as rebuilt by
recalculate_rankings (best values already rounded for storage). -/
structure RankingRecord where
  player_id : Nat
  name : String
  fide_id : Option String
  rating : Option Int
  tournaments_played : Nat
  best_1 : Int
  tournament_1 : Option String
  best_2 : Int
  best_3 : Int
  best_4 : Int
deriving Repr, DecidableEq

/-- The per-player body of recalculate_rankings: keep the valid results,
skip the player when none remain, sort by TPR descending, and store the
rounded best-N averages of the top results. -/
def playerRanking (player_id : Nat) (results : List RRow) : Option RankingRecord :=
  let valid := results.filter isValidResult
  match sortRowsDesc valid with
  | [] => none
  | top :: restSorted =>
    let tprs := (top :: restSorted).map (fun r => r.tpr)
    let n := valid.length
    some
      { player_id := player_id
        name := top.player_name
        fide_id := top.player_fide
        rating := top.player_rating
        tournaments_played := n
        best_1 := top.tpr
        tournament_1 := some top.tournament_name
        best_2 := if 2 ≤ n then pythonRoundDiv (sumInts (tprs.take 2)) 2 else 0
        best_3 := if 3 ≤ n then pythonRoundDiv (sumInts (tprs.take 3)) 3 else 0
        best_4 := if 4 ≤ n then pythonRoundDiv (sumInts (tprs.take 4)) 4 else 0 }

/-- recalculate_rankings over all players (results grouped by player id). -/
def recalculateRankings (allResults : List (Nat × List RRow)) : List RankingRecord :=
  allResults.filterMap (fun pr => playerRanking pr.1 pr.2)

/-- db.Database._ranking_priority: the cascading sort key. -/
def rankingPriority (r : RankingRecord) : Nat × Int × Int :=
  if 4 ≤ r.tournaments_played ∧ 0 < r.best_4 then (4, r.best_4, r.best_3)
  else if 3 ≤ r.tournaments_played ∧ 0 < r.best_3 then (3, r.best_3, r.best_2)
  else if 2 ≤ r.tournaments_played ∧ 0 < r.best_2 then (2, r.best_2, r.best_1)
  else if 1 ≤ r.tournaments_played ∧ 0 < r.best_1 then (1, r.best_1, 0)
  else (0, 0, 0)

/-- Python lexicographic less-than on the priority triple. -/
def ltKey3 (a b : Nat × Int × Int) : Bool :=
  decide (a.1 < b.1) ||
    (a.1 == b.1 && (decide (a.2.1 < b.2.1) ||
      (a.2.1 == b.2.1 && decide (a.2.2 < b.2.2))))

/-- The sorted(..., key=_ranking_priority, reverse=True) order used by
_store_ranking_snapshot: rank i+1 goes to position i of this list. -/
def snapshotOrder (records : List RankingRecord) : List RankingRecord :=
  sortL (fun a b => ltKey3 (rankingPriority b) (rankingPriority a)) records

/-- The best-N field the tier-N comparison reads, as an index. -/
def bestN (r : RankingRecord) (n : Nat) : Int :=
  match n with
  | 1 => r.best_1
  | 2 => r.best_2
  | 3 => r.best_3
  | 4 => r.best_4
  | _ => 0

/-- The qualification test of one tier rung: at least n valid results and
a positive best_n. -/
def tierQual (r : RankingRecord) (n : Nat) : Prop :=
  n ≤ r.tournaments_played ∧ 0 < bestN r n

instance (r : RankingRecord) (n : Nat) : Decidable (tierQual r n) := by
  unfold tierQual; infer_instance

/-- The tier of the claim, written as the spec words it: the largest N in
4,3,2,1 whose rung qualifies, and 0 when none does. -/
def isTier (r : RankingRecord) (n : Nat) : Prop :=
  (1 ≤ n ∧ n ≤ 4 ∧ tierQual r n ∧ ∀ m, m ≤ 4 → tierQual r m → m ≤ n) ∨
    (n = 0 ∧ ∀ m, 1 ≤ m → m ≤ 4 → ¬tierQual r m)

/-- The fields of one backend ranking entry that _sort_key reads
(backend/services/rankings.py). -/
structure BRank where
  best_1 : Option Int
  best_2 : Option Int
  best_3 : Option Int
  best_4 : Option Int
  tournaments_played : Nat
deriving Repr, DecidableEq

/-- backend/services/rankings._sort_key: best_1 first, nulls as 0. -/
def sortKey (d : BRank) : Int × Int × Int × Int × Int :=
  (d.best_1.getD 0, d.best_2.getD 0, d.best_3.getD 0, d.best_4.getD 0,
    (d.tournaments_played : Int))

/-- Python lexicographic less-than on the backend 5-tuple key. -/
def ltKey5 (a b : Int × Int × Int × Int × Int) : Bool :=
  decide (a.1 < b.1) ||
    (a.1 == b.1 && (decide (a.2.1 < b.2.1) ||
      (a.2.1 == b.2.1 && (decide (a.2.2.1 < b.2.2.1) ||
        (a.2.2.1 == b.2.2.1 && (decide (a.2.2.2.1 < b.2.2.2.1) ||
          (a.2.2.2.1 == b.2.2.2.1 && decide (a.2.2.2.2 < b.2.2.2.2))))))))

/-- ranking_data.sort(key=_sort_key, reverse=True) in the backend
recalculate: rank i+1 goes to position i of this list. -/
def backendOrder (entries : List BRank) : List BRank :=
  sortL (fun a b => ltKey5 (sortKey b) (sortKey a)) entries

/-! ## C6: round-count inference (backend/scraper/client.py
_extract_round_count)

The function reads three views of the parsed page: the flattened text,
the table rows as lists of cell texts, and the href attribute of every
anchor.  The regular-expression searches of the source are embedded as
direct scans with the same leftmost-match semantics; the dot of the first
pattern does not cross a newline, while an escaped-s run may. -/

structure Page where
  text : List Char
  tables : List (List (List (List Char)))
  links : List (List Char)

/-- Case-insensitive literal prefix: pat is given lowercase. -/
def stripPrefixCI : List Char → List Char → Option (List Char)
  | [], s => some s
  | _, [] => none
  | p :: ps, c :: cs => if p == c.toLower then stripPrefixCI ps cs else none

/-- The tail of pattern one after the words Final Ranking: the word after,
one or more whitespace characters, a digit run, optional whitespace, then
the word Round, attempted at one position. -/
def frTryAfter (s : List Char) : Option Nat :=
  match stripPrefixCI "after".toList s with
  | none => none
  | some s1 =>
    let sp := s1.takeWhile isPySpace
    if sp.isEmpty then none
    else
      let s2 := s1.dropWhile isPySpace
      let ds := s2.takeWhile Char.isDigit
      if ds.isEmpty then none
      else
        let s3 := (s2.dropWhile Char.isDigit).dropWhile isPySpace
        match stripPrefixCI "round".toList s3 with
        | none => none
        | some _ => some (digitsVal ds)

/-- The lazy dot-star before after: try the tail at each position, and
stop at a newline, which the dot cannot match. -/
def frScanAfter : List Char → Option Nat
  | [] => none
  | c :: cs =>
    match frTryAfter (c :: cs) with
    | some n => some n
    | none => if c == '\n' then none else frScanAfter cs

/-- Attempt the whole first pattern at one start position. -/
def frMatchAt (s : List Char) : Option Nat :=
  match stripPrefixCI "final ranking".toList s with
  | none => none
  | some rest => frScanAfter rest

/-- re.search of the first pattern: leftmost start position that admits a
match wins. -/
def finalRankingRounds : List Char → Option Nat
  | [] => none
  | c :: cs =>
    match frMatchAt (c :: cs) with
    | some n => some n
    | none => finalRankingRounds cs

/-- Literal Rd dot digits at one position: the captured digit run (taken
maximally, as backtracking into it cannot succeed) and the rest. -/
def rdAt (s : List Char) : Option (Nat × List Char) :=
  match s with
  | 'R' :: 'd' :: '.' :: rest =>
    let ds := rest.takeWhile Char.isDigit
    if ds.isEmpty then none else some (digitsVal ds, rest.dropWhile Char.isDigit)
  | _ => none

/-- re.search of pattern two with its guard class: some Rd-number must be
followed by a character that is neither a comma nor a digit. -/
def rdGuard : List Char → Bool
  | [] => false
  | c :: cs =>
    match rdAt (c :: cs) with
    | some (_, h :: _) => if h == ',' || h.isDigit then rdGuard cs else true
    | _ => rdGuard cs

/-- re.findall of the Rd-number pattern, scanning non-overlapping matches
left to right (fuelled by the text length; every step consumes at least
one character, so the fuel never runs out before the text does). -/
def rdFindAllGo : Nat → List Char → List Nat
  | 0, _ => []
  | _, [] => []
  | fuel + 1, c :: cs =>
    match rdAt (c :: cs) with
    | some (n, rest) => n :: rdFindAllGo fuel rest
    | none => rdFindAllGo fuel cs

def rdFindAll (s : List Char) : List Nat := rdFindAllGo s.length s

/-- Python max over a list of digit values (all nonnegative). -/
def maxNat (l : List Nat) : Nat := l.foldl max 0

/-- Heuristic two of the ladder: when the guarded search succeeds, the
maximum over every Rd-number found (none when findall is empty). -/
def rdStage (text : List Char) : Option Nat :=
  if rdGuard text then
    match rdFindAll text with
    | [] => none
    | n :: ns => some (maxNat (n :: ns))
  else none

/-- One details-table row: at least two cells, the first containing the
label number of rounds after strip and lowercase, the second parsing as
an int. -/
def rowRoundCount (row : List (List Char)) : Option Int :=
  match row with
  | c0 :: c1 :: _ =>
    if hasInfix "number of rounds".toList (lowerCs (stripCs c0)) then pyInt (stripCs c1)
    else none
  | _ => none

def rowsRoundCount : List (List (List Char)) → Option Int
  | [] => none
  | r :: rs =>
    match rowRoundCount r with
    | some n => some n
    | none => rowsRoundCount rs

/-- Heuristic three of the ladder: the first matching, parseable row over
all tables in document order. -/
def tablesRoundCount : List (List (List (List Char))) → Option Int
  | [] => none
  | t :: ts =>
    match rowsRoundCount t with
    | some n => some n
    | none => tablesRoundCount ts

/-- re.search of an rd parameter inside one href: first occurrence wins. -/
def hrefRd : List Char → Option Nat
  | [] => none
  | c :: cs =>
    match c, cs with
    | 'r', 'd' :: '=' :: rest =>
      let ds := rest.takeWhile Char.isDigit
      if ds.isEmpty then hrefRd cs else some (digitsVal ds)
    | _, _ => hrefRd cs

/-- Heuristic four: the maximum rd parameter over every link, seeded 1. -/
def maxLinkRound (links : List (List Char)) : Nat :=
  links.foldl
    (fun acc href =>
      match hrefRd href with
      | some n => max acc n
      | none => acc) 1

/-- backend/scraper/client._extract_round_count: the ordered fallback
ladder, with the fixed default 6 when even the link scan finds at most
round 1. -/
def extractRoundCount (p : Page) : Int :=
  match finalRankingRounds p.text with
  | some n => (n : Int)
  | none =>
    match rdStage p.text with
    | some n => (n : Int)
    | none =>
      match tablesRoundCount p.tables with
      | some k => k
      | none =>
        let m := maxLinkRound p.links
        if m ≤ 1 then 6 else (m : Int)

/-! ### Legacy round-count inference (src/scraper/chess_results.py
_get_round_count)

The legacy scraper infers the round count differently: four regex
patterns tried first against the page title, then against the text nodes
of the page (pattern priority outer, node order inner), then the maximum
rd parameter among links whose href matches art=3 followed by an rd
number, then the default 9.  The patterns have no ignore-case flag and
contain no dot, so they embed as case-sensitive literal-digits-literal
scans; hrefs are taken newline-free except where the dot of the link
filter is concerned. -/

structure LegacyPage where
  title : Option (List Char)
  strings : List (List Char)
  links : List (List Char)

/-- Case-sensitive literal prefix. -/
def stripPrefixCS : List Char → List Char → Option (List Char)
  | [], s => some s
  | _, [] => none
  | p :: ps, c :: cs => if p == c then stripPrefixCS ps cs else none

/-- One pattern of the legacy list (a literal, a captured digit run, a
literal) attempted at one position; the digit run is maximal, as
backtracking into it cannot succeed. -/
def litPatAt (pre suf s : List Char) : Option Nat :=
  match stripPrefixCS pre s with
  | none => none
  | some s1 =>
    let ds := s1.takeWhile Char.isDigit
    if ds.isEmpty then none
    else
      match stripPrefixCS suf (s1.dropWhile Char.isDigit) with
      | none => none
      | some _ => some (digitsVal ds)

/-- re.search of one legacy pattern: leftmost start position wins. -/
def litPatSearch (pre suf : List Char) : List Char → Option Nat
  | [] => none
  | c :: cs =>
    match litPatAt pre suf (c :: cs) with
    | some n => some n
    | none => litPatSearch pre suf cs

/-- The four patterns of _get_round_count, in priority order, as
prefix-suffix pairs around the captured digit run. -/
def legacyPatterns : List (List Char × List Char) :=
  [("Final Ranking after ".toList, " Rounds".toList),
   ("Ranking after Round ".toList, [] ),
   ("Round ".toList, [] ),
   ([], " Rounds".toList)]

/-- The title loop: try each pattern in order against one text. -/
def patsSearch : List (List Char × List Char) → List Char → Option Nat
  | [], _ => none
  | (pre, suf) :: rest, s =>
    match litPatSearch pre suf s with
    | some n => some n
    | none => patsSearch rest s

/-- soup.find(string=re.compile(pattern)) followed by re.search on the
found node: the first text node where the pattern matches. -/
def nodesSearch (pre suf : List Char) : List (List Char) → Option Nat
  | [] => none
  | s :: ss =>
    match litPatSearch pre suf s with
    | some n => some n
    | none => nodesSearch pre suf ss

/-- The second loop of _get_round_count: pattern priority outer, node
order inner. -/
def stringsRound : List (List Char × List Char) → List (List Char) → Option Nat
  | [], _ => none
  | (pre, suf) :: rest, strs =>
    match nodesSearch pre suf strs with
    | some n => some n
    | none => stringsRound rest strs

/-- The tail of the link-filter regex after art=3: an rd number somewhere
later, with the dot of the regex unable to cross a newline. -/
def rdAfterArt3 : List Char → Bool
  | [] => false
  | c :: cs =>
    (match stripPrefixCS "rd=".toList (c :: cs) with
     | some (d :: _) => d.isDigit
     | _ => false) ||
    (c != '\n' && rdAfterArt3 cs)

/-- The href filter of the legacy link scan: art=3 followed by an rd
number. -/
def hasArt3Rd : List Char → Bool
  | [] => false
  | c :: cs =>
    (match stripPrefixCS "art=3".toList (c :: cs) with
     | some rest => rdAfterArt3 rest
     | none => false) ||
    hasArt3Rd cs

/-- The legacy link stage: keep the art=3 links, extract the first rd
number of each (which may precede the art=3), and take the maximum. -/
def legacyLinksRound (links : List (List Char)) : Option Nat :=
  let flt := links.filter hasArt3Rd
  if flt.isEmpty then none
  else
    let rounds := flt.filterMap hrefRd
    if rounds.isEmpty then none else some (maxNat rounds)

/-- The title stage of _get_round_count: nothing when the page has no
title element. -/
def titleStage (p : LegacyPage) : Option Nat :=
  match p.title with
  | some t => patsSearch legacyPatterns t
  | none => none

/-- src/scraper/chess_results.py _get_round_count: title patterns, then
page-text patterns, then the art=3 link scan, then the default 9. -/
def getRoundCountLegacy (p : LegacyPage) : Nat :=
  match titleStage p with
  | some n => n
  | none =>
    match stringsRound legacyPatterns p.strings with
    | some n => n
    | none =>
      match legacyLinksRound p.links with
      | some n => n
      | none => 9

/-! ## C9: rank-change deltas (db.py get_rank_changes) -/

/-- One row of a ranking snapshot. -/
structure SnapRow where
  player_id : Nat
  rank : Nat
  tournaments_played : Option Nat
  best_4 : Option Int
deriving Repr, DecidableEq

/-- The change record built for one player of the latest snapshot. -/
structure RankChange where
  rank_change : Option Int
  previous_rank : Option Nat
  is_new : Bool
deriving Repr, DecidableEq

/-- Ascending lexicographic order on rank-player pairs (Python sorted). -/
def pairLe (a b : Nat × Nat) : Bool :=
  decide (a.1 < b.1) || (a.1 == b.1 && decide (a.2 ≤ b.2))

/-- The sorted list of rank-player pairs restricted to the top N: the
signature compared between snapshots. -/
def topSignature (topN : Nat) (rows : List SnapRow) : List (Nat × Nat) :=
  sortL pairLe
    (rows.filterMap (fun r => if r.rank ≤ topN then some (r.rank, r.player_id) else none))

/-- The Python dict comprehension over previous_rows keyed by player id:
a later row with the same key wins. -/
def lookupLast (rows : List SnapRow) (pid : Nat) : Option SnapRow :=
  rows.foldl (fun acc r => if r.player_id == pid then some r else acc) none

/-- The best-4 qualification read off a snapshot row, nulls as 0. -/
def snapHasBest4 (tp : Option Nat) (b4 : Option Int) : Bool :=
  decide (4 ≤ tp.getD 0) && decide (0 < b4.getD 0)

/-- The change record for one latest row given the comparison-snapshot
entry of the same player, exactly the branch ladder of the source. -/
def changeFor (row : SnapRow) (prevEntry : Option SnapRow) : RankChange :=
  match prevEntry with
  | none => { rank_change := none, previous_rank := none, is_new := true }
  | some prev =>
    let hasLatest := snapHasBest4 row.tournaments_played row.best_4
    let prevHas := snapHasBest4 prev.tournaments_played prev.best_4
    let prevHasData := prev.tournaments_played.isSome || prev.best_4.isSome
    if hasLatest && prevHasData && !prevHas then
      { rank_change := none, previous_rank := some prev.rank, is_new := true }
    else
      { rank_change := some ((prev.rank : Int) - (row.rank : Int)),
        previous_rank := some prev.rank, is_new := false }

/-- Insert-or-replace into an association list, keeping the position of an
existing key and appending a new one: Python dict insertion order. -/
def upsertAssoc (k : Nat) (v : RankChange) :
    List (Nat × RankChange) → List (Nat × RankChange)
  | [] => [(k, v)]
  | (k2, v2) :: rest =>
    if k2 == k then (k2, v) :: rest else (k2, v2) :: upsertAssoc k v rest

/-- The changes dict built over the latest rows within the top N. -/
def buildChanges (topN : Nat) (latest : List SnapRow) (previousRows : List SnapRow) :
    List (Nat × RankChange) :=
  latest.foldl
    (fun acc row =>
      if topN < row.rank then acc
      else upsertAssoc row.player_id (changeFor row (lookupLast previousRows row.player_id)) acc)
    []

/-- db.get_rank_changes: snapshots arrive most recent first (the DISTINCT
snapshot_time query, LIMIT 10); the comparison snapshot is the first prior
one whose top-N signature differs from the latest. -/
def getRankChanges (snapshots : List (List SnapRow)) (topN : Nat) :
    List (Nat × RankChange) :=
  match snapshots.take 10 with
  | [] => []
  | [_] => []
  | latest :: rest =>
    let latestSig := topSignature topN latest
    match rest.find? (fun cand => topSignature topN cand != latestSig) with
    | none => []
    | some previousRows => buildChanges topN latest previousRows

/-- Lookup in the produced association list. -/
def lookupAssoc (l : List (Nat × RankChange)) (k : Nat) : Option RankChange :=
  (l.find? (fun kv => kv.1 == k)).map (fun kv => kv.2)

/-! ## Helper lemmas -/

theorem tryMirrors_first_ok {ε ρ : Type} (path : String) (r : ρ) (suf : List (Except ε ρ)) :
    ∀ (pre : List (Except ε ρ)), (∀ o ∈ pre, ∃ e, o = Except.error e) →
      ∀ last, tryMirrors path (pre ++ Except.ok r :: suf) last = Except.ok r := by
  intro pre
  induction pre with
  | nil => intro _ last; rfl
  | cons o pre ih =>
    intro h last
    obtain ⟨e, he⟩ := h o (List.mem_cons_self o pre)
    subst he
    simpa [tryMirrors] using ih (fun o ho => h o (List.mem_cons_of_mem _ ho)) (some e)

theorem tryMirrors_all_error {ε ρ : Type} (path : String) :
    ∀ (outcomes : List (Except ε ρ)), (∀ o ∈ outcomes, ∃ e, o = Except.error e) →
      ∀ last, tryMirrors path outcomes last =
        Except.error ⟨"All chess-results mirrors failed for " ++ path,
          outcomes.foldl
            (fun acc o => match o with | .error e => some e | .ok _ => acc) last⟩ := by
  intro outcomes
  induction outcomes with
  | nil => intro _ last; rfl
  | cons o rest ih =>
    intro h last
    obtain ⟨e, he⟩ := h o (List.mem_cons_self o rest)
    subst he
    simpa [tryMirrors] using ih (fun o ho => h o (List.mem_cons_of_mem _ ho)) (some e)

/-! ## Claims -/

/-- C5 counterexample: on re-import of an existing tournament, newly
supplied non-null metadata overwrites existing non-null values (and name
is always overwritten), contrary to the claim that existing non-null
values are left unchanged. -/
theorem c5_counterexample :
    upsertTournament
        (some ⟨"Nairobi Open", some "2024-01-05", some "2024-01-07",
          some "NO24", some "Nairobi", some 6⟩)
        ⟨"Nairobi Open Chess", some "2024-02-01", some "2024-02-03",
          some "NOC24", some "Mombasa", some 8⟩ ≠
      c5ClaimedUpsert
        (some ⟨"Nairobi Open", some "2024-01-05", some "2024-01-07",
          some "NO24", some "Nairobi", some 6⟩)
        ⟨"Nairobi Open Chess", some "2024-02-01", some "2024-02-03",
          some "NOC24", some "Mombasa", some 8⟩ := by
  decide

/-- C5 (amended): on re-import the name is always overwritten with the
newly supplied name, and every other metadata field takes the newly
supplied value whenever it is non-null, keeping the existing value only
when the new value is null; a first import stores the incoming record. -/
theorem c5_upsert_amended :
    ∀ old incoming : TournamentMeta,
      upsertTournament none incoming = incoming ∧
      (upsertTournament (some old) incoming).name = incoming.name ∧
      (incoming.start_date = none →
        (upsertTournament (some old) incoming).start_date = old.start_date) ∧
      (∀ v, incoming.start_date = some v →
        (upsertTournament (some old) incoming).start_date = some v) ∧
      (incoming.end_date = none →
        (upsertTournament (some old) incoming).end_date = old.end_date) ∧
      (∀ v, incoming.end_date = some v →
        (upsertTournament (some old) incoming).end_date = some v) ∧
      (incoming.short_name = none →
        (upsertTournament (some old) incoming).short_name = old.short_name) ∧
      (∀ v, incoming.short_name = some v →
        (upsertTournament (some old) incoming).short_name = some v) ∧
      (incoming.location = none →
        (upsertTournament (some old) incoming).location = old.location) ∧
      (∀ v, incoming.location = some v →
        (upsertTournament (some old) incoming).location = some v) ∧
      (incoming.rounds = none →
        (upsertTournament (some old) incoming).rounds = old.rounds) ∧
      (∀ v, incoming.rounds = some v →
        (upsertTournament (some old) incoming).rounds = some v) := by
  intro old incoming
  refine ⟨rfl, rfl, ?_, ?_, ?_, ?_, ?_, ?_, ?_, ?_, ?_, ?_⟩ <;>
    simp only [upsertTournament, coalesce]
  all_goals first
    | (intro h; rw [h])
    | (intro v hv; rw [hv])

/-- C5 witness: the amended theorem applied at a concrete re-import. -/
theorem c5_witness :
    (upsertTournament
        (some ⟨"T", some "2024-01-05", none, none, some "Nakuru", some 6⟩)
        ⟨"T2", none, none, none, some "Eldoret", none⟩).location = some "Eldoret" ∧
    (upsertTournament
        (some ⟨"T", some "2024-01-05", none, none, some "Nakuru", some 6⟩)
        ⟨"T2", none, none, none, some "Eldoret", none⟩).start_date = some "2024-01-05" := by
  constructor
  · exact (c5_upsert_amended
      ⟨"T", some "2024-01-05", none, none, some "Nakuru", some 6⟩
      ⟨"T2", none, none, none, some "Eldoret", none⟩).2.2.2.2.2.2.2.2.2.1 "Eldoret" rfl
  · exact (c5_upsert_amended
      ⟨"T", some "2024-01-05", none, none, some "Nakuru", some 6⟩
      ⟨"T2", none, none, none, some "Eldoret", none⟩).2.2.1 rfl

/-- C7 counterexample: two runs whose first host fails with different
causes produce identical raised errors, so the raised error does not
enumerate the per-host causes (it chains only the last one). -/
theorem c7_counterexample :
    (mirrorRequest "tnr123.aspx"
        [Except.error "host1: timeout", Except.error "host3: refused"] =
      (mirrorRequest "tnr123.aspx"
        [Except.error "host1: dns failure", Except.error "host3: refused"] :
          Except (MirrorError String) String)) ∧
    perHostCauses
        ([Except.error "host1: timeout", Except.error "host3: refused"] :
          List (Except String String)) ≠
      perHostCauses
        ([Except.error "host1: dns failure", Except.error "host3: refused"] :
          List (Except String String)) := by
  exact ⟨rfl, by decide⟩

/-- C7 (amended): the fetcher tries the hosts in configured order and
returns the first successful response; it raises only after every host
failed, and the raised error carries the fixed aggregate message for the
path chained to the cause of the last failing host only (earlier per-host
causes are logged, not attached). -/
theorem c7_failover_amended (ε ρ : Type) :
    (∀ (path : String) (pre suf : List (Except ε ρ)) (r : ρ),
      (∀ o ∈ pre, ∃ e, o = Except.error e) →
        mirrorRequest path (pre ++ Except.ok r :: suf) = Except.ok r) ∧
    (∀ (path : String) (outcomes : List (Except ε ρ)),
      (∀ o ∈ outcomes, ∃ e, o = Except.error e) →
        mirrorRequest path outcomes =
          Except.error ⟨"All chess-results mirrors failed for " ++ path,
            lastCause outcomes⟩) := by
  constructor
  · intro path pre suf r h
    exact tryMirrors_first_ok path r suf pre h none
  · intro path outcomes h
    exact tryMirrors_all_error path outcomes h none

/-- C7 witness: the amended theorem applied to one failing host followed
by one succeeding host, and to two failing hosts. -/
theorem c7_witness :
    mirrorRequest "p.aspx" [Except.error "down", Except.ok "page"] =
      (Except.ok "page" : Except (MirrorError String) String) ∧
    mirrorRequest "p.aspx"
        [Except.error "down", (Except.error "reset" : Except String String)] =
      Except.error ⟨"All chess-results mirrors failed for p.aspx", some "reset"⟩ := by
  constructor
  · exact (c7_failover_amended String String).1 "p.aspx" [Except.error "down"] [] "page"
      (by intro o ho; simp at ho; exact ⟨"down", ho⟩)
  · have h := (c7_failover_amended String String).2 "p.aspx"
      [Except.error "down", Except.error "reset"]
      (by intro o ho; simp at ho; rcases ho with h | h <;> exact ⟨_, h⟩)
    simpa [lastCause] using h

/-- C8 counterexample: a round cell containing the letter K (and no plus
or minus) is classified walkover by the code, while the classifier
described by the claim would return valid. -/
theorem c8_counterexample :
    determineResultStatus ["K"] "" ≠ c8ClaimedStatus ["K"] "" := by
  decide

/-- C8 (amended): the classifier returns walkover when any round-result
cell contains a plus, minus or K forfeit marker; otherwise incomplete
when the results text contains not paired; otherwise withdrawn when the
lowercased results text contains withdrawn; otherwise valid, so an
inconclusive page yields valid and a more severe status is never produced
without positive evidence. -/
theorem c8_status_ladder :
    ∀ (gs : List String) (t : String),
      (anyForfeitMarker gs = true → determineResultStatus gs t = "walkover") ∧
      (anyForfeitMarker gs = false → strContains "not paired" t = true →
        determineResultStatus gs t = "incomplete") ∧
      (anyForfeitMarker gs = false → strContains "not paired" t = false →
        hasInfix "withdrawn".toList (lowerCs t.toList) = true →
        determineResultStatus gs t = "withdrawn") ∧
      (anyForfeitMarker gs = false → strContains "not paired" t = false →
        hasInfix "withdrawn".toList (lowerCs t.toList) = false →
        determineResultStatus gs t = "valid") := by
  intro gs t
  refine ⟨?_, ?_, ?_, ?_⟩ <;> intros <;> simp_all [determineResultStatus]

/-- C8 witness: the amended theorem applied at concrete pages. -/
theorem c8_witness :
    determineResultStatus ["1", "0", "1"] "Rd. results" = "valid" ∧
    determineResultStatus ["1", "-"] "" = "walkover" := by
  constructor
  · exact (c8_status_ladder ["1", "0", "1"] "Rd. results").2.2.2 rfl rfl rfl
  · exact (c8_status_ladder ["1", "-"] "").1 rfl

/-! ### Identity-resolution lemmas -/

theorem pid_unique {l : List PRec} (hu : l.Pairwise (fun a b => a.pid ≠ b.pid))
    {p q : PRec} (hp : p ∈ l) (hq : q ∈ l) (hpq : p.pid = q.pid) : p = q := by
  induction l with
  | nil => cases hp
  | cons h t ih =>
    rcases List.pairwise_cons.mp hu with ⟨hh, ht⟩
    rcases List.mem_cons.mp hp with hp1 | hp1 <;> rcases List.mem_cons.mp hq with hq1 | hq1
    · rw [hp1, hq1]
    · exact absurd hpq (hp1 ▸ hh q hq1)
    · exact absurd hpq.symm (hq1 ▸ hh p hp1)
    · exact ih ht hp1 hq1

theorem resolvePlayer_step1 {st : PlayersState} {fide : Option String} {nm : String}
    {fed : Option String} {q : PRec}
    (hA : (if truthyFide fide then findByFide st.players (fide.getD "") else none) = some q) :
    resolvePlayer st fide nm fed = (st, q.pid) := by
  unfold resolvePlayer
  rw [hA]

theorem resolvePlayer_step2 {st : PlayersState} {fide : Option String} {nm : String}
    {fed : Option String} {q : PRec}
    (hA : (if truthyFide fide then findByFide st.players (fide.getD "") else none) = none)
    (hB : findByNameNoFide st.players nm = some q) :
    resolvePlayer st fide nm fed =
      (if truthyFide fide then
        { st with players := setFide st.players q.pid (fide.getD "") } else st, q.pid) := by
  unfold resolvePlayer
  rw [hA, hB]

theorem resolvePlayer_step3 {st : PlayersState} {fide : Option String} {nm : String}
    {fed : Option String}
    (hA : (if truthyFide fide then findByFide st.players (fide.getD "") else none) = none)
    (hB : findByNameNoFide st.players nm = none) :
    resolvePlayer st fide nm fed =
      ({ players := st.players ++ [⟨st.next_id, fide, nm, fed⟩],
         next_id := st.next_id + 1 }, st.next_id) := by
  unfold resolvePlayer
  rw [hA, hB]

theorem find?_append_of_none {α : Type} (p : α → Bool) {l1 : List α} (l2 : List α)
    (h : l1.find? p = none) : (l1 ++ l2).find? p = l2.find? p := by
  induction l1 with
  | nil => rfl
  | cons a t ih =>
    cases ha : p a with
    | true => simp [List.find?_cons, ha] at h
    | false =>
      simp only [List.find?_cons, ha] at h
      simp only [List.cons_append, List.find?_cons, ha]
      exact ih h

theorem findByFide_setFide {ps : List PRec} {f : String} {i : Nat}
    (hnone : findByFide ps f = none) (hex : ∃ e ∈ ps, e.pid = i) :
    ∃ q, findByFide (setFide ps i f) f = some q ∧ q.pid = i := by
  induction ps with
  | nil => rcases hex with ⟨e, he, _⟩; cases he
  | cons hd t ih =>
    cases hh : (hd.fide_id == some f) with
    | true => simp [findByFide, List.find?_cons, hh] at hnone
    | false =>
      simp only [findByFide, List.find?_cons, hh] at hnone
      cases hpid : (hd.pid == i) with
      | true =>
        have hpid2 : hd.pid = i := by simpa using hpid
        refine ⟨{ hd with fide_id := some f }, ?_, hpid2⟩
        simp [setFide, hpid2, findByFide, List.find?_cons]
      | false =>
        rcases hex with ⟨e, he, hei⟩
        rcases List.mem_cons.mp he with he1 | he1
        · have hdi : hd.pid = i := he1 ▸ hei
          simp [hdi] at hpid
        · rcases ih hnone ⟨e, he1, hei⟩ with ⟨q, hq, hqi⟩
          refine ⟨q, ?_, hqi⟩
          simp only [setFide, List.map_cons, hpid, if_false, Bool.false_eq_true]
          simp only [findByFide, List.find?_cons, hh]
          exact hq

theorem blankFide_eq_false_of_some {f : String} (hf : f ≠ "") :
    blankFide (some f) = false := by
  simp [blankFide, hf]

/-- C4: player identity resolution. Conjuncts: (1) a truthy federation id
matching an existing player resolves to that player with no state change;
(2) under distinct rowids, a player record holding a non-empty federation
id survives any resolution step unchanged, so a non-empty id is never
overwritten by a blank value; (3) two rows carrying the same non-empty
federation id resolve to the same player id; (4) with no federation-id
match, a case-insensitive name match against a player without a
federation id is used, backfilling a truthy incoming id; (5) with neither
match, a new player record is created. -/
theorem c4_identity_resolution :
    (∀ (st : PlayersState) (f nm : String) (fed : Option String) (p : PRec),
      f ≠ "" → findByFide st.players f = some p →
        resolvePlayer st (some f) nm fed = (st, p.pid)) ∧
    (∀ (st : PlayersState) (fide : Option String) (nm : String) (fed : Option String),
      st.players.Pairwise (fun a b => a.pid ≠ b.pid) →
      ∀ p ∈ st.players, ∀ f, p.fide_id = some f → f ≠ "" →
        p ∈ (resolvePlayer st fide nm fed).1.players) ∧
    (∀ (st : PlayersState) (f nm1 nm2 : String) (fed1 fed2 : Option String),
      f ≠ "" →
        (resolvePlayer (resolvePlayer st (some f) nm1 fed1).1 (some f) nm2 fed2).2 =
          (resolvePlayer st (some f) nm1 fed1).2) ∧
    (∀ (st : PlayersState) (fide : Option String) (nm : String) (fed : Option String) (q : PRec),
      (if truthyFide fide then findByFide st.players (fide.getD "") else none) = none →
      findByNameNoFide st.players nm = some q →
        resolvePlayer st fide nm fed =
          (if truthyFide fide then
            { st with players := setFide st.players q.pid (fide.getD "") } else st, q.pid)) ∧
    (∀ (st : PlayersState) (fide : Option String) (nm : String) (fed : Option String),
      (if truthyFide fide then findByFide st.players (fide.getD "") else none) = none →
      findByNameNoFide st.players nm = none →
        resolvePlayer st fide nm fed =
          ({ players := st.players ++ [⟨st.next_id, fide, nm, fed⟩],
             next_id := st.next_id + 1 }, st.next_id)) := by
  have htr : ∀ {f : String}, f ≠ "" → truthyFide (some f) = true := by
    intro f hf; simpa [truthyFide, bne_iff_ne] using hf
  have step1f : ∀ (st : PlayersState) (f nm : String) (fed : Option String) (p : PRec),
      f ≠ "" → findByFide st.players f = some p →
        resolvePlayer st (some f) nm fed = (st, p.pid) := by
    intro st f nm fed p hf hp
    exact resolvePlayer_step1 (by rw [if_pos (htr hf)]; exact hp)
  refine ⟨step1f, ?_, ?_, fun st fide nm fed q hA hB => resolvePlayer_step2 hA hB,
    fun st fide nm fed hA hB => resolvePlayer_step3 hA hB⟩
  · -- a non-empty federation id is never overwritten
    intro st fide nm fed hu p hp f hpf hf
    cases hA : (if truthyFide fide then findByFide st.players (fide.getD "") else none) with
    | some q => rw [resolvePlayer_step1 hA]; exact hp
    | none =>
      cases hB : findByNameNoFide st.players nm with
      | some q =>
        rw [resolvePlayer_step2 hA hB]
        by_cases htf : truthyFide fide
        · rw [if_pos htf]
          have hqmem : q ∈ st.players := List.mem_of_find?_eq_some hB
          have hqpred := List.find?_some hB
          have hq2 : lowerCs q.name.toList = lowerCs nm.toList ∧ blankFide q.fide_id = true := by
            simpa using hqpred
          have hqblank : blankFide q.fide_id = true := hq2.2
          have hne : p.pid ≠ q.pid := by
            intro hpq
            have : p = q := pid_unique hu hp hqmem hpq
            rw [← this, hpf, blankFide_eq_false_of_some hf] at hqblank
            cases hqblank
          show p ∈ setFide st.players q.pid (fide.getD "")
          rw [setFide]
          refine List.mem_map.mpr ⟨p, hp, ?_⟩
          rw [if_neg (by simpa using hne)]
        · rw [if_neg htf]; exact hp
      | none =>
        rw [resolvePlayer_step3 hA hB]
        exact List.mem_append_left _ hp
  · -- rows with the same non-empty federation id map to the same player
    intro st f nm1 nm2 fed1 fed2 hf
    cases hA : findByFide st.players f with
    | some p =>
      rw [step1f st f nm1 fed1 p hf hA, step1f st f nm2 fed2 p hf hA]
    | none =>
      have hAif : (if truthyFide (some f) then findByFide st.players ((some f).getD "")
          else none) = none := by
        rw [if_pos (htr hf)]; exact hA
      cases hB : findByNameNoFide st.players nm1 with
      | some q =>
        rw [resolvePlayer_step2 hAif hB, if_pos (htr hf)]
        have hqmem : q ∈ st.players := List.mem_of_find?_eq_some hB
        rcases findByFide_setFide hA ⟨q, hqmem, rfl⟩ with ⟨q2, hq2, hq2pid⟩
        rw [step1f _ f nm2 fed2 q2 hf hq2]
        exact hq2pid
      | none =>
        rw [resolvePlayer_step3 hAif hB]
        have hnew : findByFide (st.players ++ [⟨st.next_id, some f, nm1, fed1⟩]) f =
            some ⟨st.next_id, some f, nm1, fed1⟩ := by
          rw [findByFide, find?_append_of_none _ _ hA]
          exact List.find?_cons_of_pos _ (by simp)
        rw [step1f _ f nm2 fed2 _ hf hnew]

/-- C4 witness: the same-federation-id conjunct applied to a concrete
state holding one player with federation id 10800018. -/
theorem c4_witness :
    (resolvePlayer
        (resolvePlayer ⟨[⟨1, some "10800018", "Wanjiku A", some "KEN"⟩], 2⟩
          (some "10800018") "WANJIKU A" (some "KEN")).1
        (some "10800018") "wanjiku a." none).2 =
      (resolvePlayer ⟨[⟨1, some "10800018", "Wanjiku A", some "KEN"⟩], 2⟩
        (some "10800018") "WANJIKU A" (some "KEN")).2 :=
  c4_identity_resolution.2.2.1 ⟨[⟨1, some "10800018", "Wanjiku A", some "KEN"⟩], 2⟩
    "10800018" "WANJIKU A" "wanjiku a." (some "KEN") none (by decide)

/-- C10: when a result row carries no (truthy) federation id and every
existing player whose name matches case-insensitively already has a
non-empty federation id, a brand-new player record is created; name-based
matching only ever considers players whose federation id is null or
empty. -/
theorem c10_new_player_on_claimed_names :
    ∀ (st : PlayersState) (fide : Option String) (nm : String) (fed : Option String),
      truthyFide fide = false →
      (∀ p ∈ st.players,
        lowerCs p.name.toList = lowerCs nm.toList → truthyFide p.fide_id = true) →
      resolvePlayer st fide nm fed =
        ({ players := st.players ++ [⟨st.next_id, fide, nm, fed⟩],
           next_id := st.next_id + 1 }, st.next_id) := by
  intro st fide nm fed hft hall
  have hB : findByNameNoFide st.players nm = none := by
    rw [findByNameNoFide, List.find?_eq_none]
    intro p hp hpred
    have hp2 : lowerCs p.name.toList = lowerCs nm.toList ∧ blankFide p.fide_id = true := by
      simpa using hpred
    have hblank : blankFide p.fide_id = true := hp2.2
    have htruthy := hall p hp hp2.1
    cases hfi : p.fide_id with
    | none => rw [hfi] at htruthy; cases htruthy
    | some s =>
      rw [hfi] at htruthy hblank
      have hs : s = "" := by simpa [blankFide] using hblank
      rw [hs] at htruthy
      simp [truthyFide] at htruthy
  exact resolvePlayer_step3 (by rw [hft]; rfl) hB

/-- C10 witness: the theorem applied to a state where the only
name-matching player already has a federation id. -/
theorem c10_witness :
    resolvePlayer ⟨[⟨1, some "777", "Alice Mwangi", none⟩], 2⟩ none "ALICE MWANGI"
        (some "KEN") =
      (⟨[⟨1, some "777", "Alice Mwangi", none⟩, ⟨2, none, "ALICE MWANGI", some "KEN"⟩], 3⟩, 2) :=
  c10_new_player_on_claimed_names ⟨[⟨1, some "777", "Alice Mwangi", none⟩], 2⟩ none
    "ALICE MWANGI" (some "KEN") (by decide) (by decide)

/-! ### Ranking-engine lemmas -/

theorem rankingPriority_fst_isTier (r : RankingRecord) : isTier r (rankingPriority r).1 := by
  unfold rankingPriority isTier tierQual
  split_ifs with h1 h2 h3 h4
  · exact Or.inl ⟨by norm_num, by norm_num, by simpa [bestN] using h1, fun m hm _ => hm⟩
  · refine Or.inl ⟨by norm_num, by norm_num, by simpa [bestN] using h2, ?_⟩
    intro m hm hqm
    interval_cases m <;> first
      | omega
      | (exact absurd (by simpa [bestN] using hqm) h1)
  · refine Or.inl ⟨by norm_num, by norm_num, by simpa [bestN] using h3, ?_⟩
    intro m hm hqm
    interval_cases m <;> first
      | omega
      | (exact absurd (by simpa [bestN] using hqm) h1)
      | (exact absurd (by simpa [bestN] using hqm) h2)
  · refine Or.inl ⟨by norm_num, by norm_num, by simpa [bestN] using h4, ?_⟩
    intro m hm hqm
    interval_cases m <;> first
      | omega
      | (exact absurd (by simpa [bestN] using hqm) h1)
      | (exact absurd (by simpa [bestN] using hqm) h2)
      | (exact absurd (by simpa [bestN] using hqm) h3)
  · refine Or.inr ⟨rfl, ?_⟩
    intro m hm1 hm4 hqm
    interval_cases m <;> first
      | omega
      | (exact absurd (by simpa [bestN] using hqm) h1)
      | (exact absurd (by simpa [bestN] using hqm) h2)
      | (exact absurd (by simpa [bestN] using hqm) h3)
      | (exact absurd (by simpa [bestN] using hqm) h4)

theorem rankingPriority_snd_bestN (r : RankingRecord) :
    (rankingPriority r).2.1 = bestN r (rankingPriority r).1 := by
  unfold rankingPriority
  split_ifs <;> rfl

theorem pythonRoundDiv_nearest (s d : Int) (hd : 0 < d) :
    2 * |d * pythonRoundDiv s d - s| ≤ d := by
  have key : d * Int.fdiv s d = s - s % d := by
    rw [Int.fdiv_eq_ediv _ hd.le, Int.emod_def]; ring
  have hr0 : 0 ≤ s % d := Int.emod_nonneg s (ne_of_gt hd)
  have hrd : s % d < d := Int.emod_lt_of_pos s hd
  have hrw : s - d * Int.fdiv s d = s % d := by rw [key]; ring
  have habs1 : |d * Int.fdiv s d - s| = s % d := by
    rw [key, show s - s % d - s = -(s % d) by ring, abs_neg, abs_of_nonneg hr0]
  have habs2 : |d * (Int.fdiv s d + 1) - s| = d - s % d := by
    rw [show d * (Int.fdiv s d + 1) - s = d - (s - d * Int.fdiv s d) by ring, hrw]
    exact abs_of_nonneg (by linarith)
  unfold pythonRoundDiv
  simp only [hrw]
  split_ifs with c1 c2 c3
  · rw [habs1]; linarith
  · rw [habs2]; linarith
  · rw [habs1]; linarith
  · rw [habs2]; linarith

theorem filter_drop_invalid {l1 l2 : List RRow} {r : RRow}
    (hr : isValidResult r = false) :
    (l1 ++ r :: l2).filter isValidResult = (l1 ++ l2).filter isValidResult := by
  simp [List.filter_append, List.filter_cons, hr]

theorem playerRanking_drop_invalid (pid : Nat) (l1 l2 : List RRow) (r : RRow)
    (hr : isValidResult r = false) :
    playerRanking pid (l1 ++ r :: l2) = playerRanking pid (l1 ++ l2) := by
  have hf := @filter_drop_invalid l1 l2 r hr
  simp only [playerRanking, hf]

theorem recalc_drop_invalid (pre post : List (Nat × List RRow)) (pid : Nat)
    (l1 l2 : List RRow) (r : RRow) (hr : isValidResult r = false) :
    recalculateRankings (pre ++ (pid, l1 ++ r :: l2) :: post) =
      recalculateRankings (pre ++ (pid, l1 ++ l2) :: post) := by
  simp only [recalculateRankings, List.filterMap_append, List.filterMap_cons]
  rw [playerRanking_drop_invalid pid l1 l2 r hr]

/-- C1 counterexample: the example players given by the spec. Under the
db.py priority the four-result player is tier 4 and the three-result
player is tier 3, yet the backend service order (_sort_key, best_1
first) ranks the tier-3 player above the tier-4 player, so tier does not
dominate there. -/
theorem c1_counterexample :
    (rankingPriority ⟨1, "A", none, none, 4, 1800, none, 1800, 1800, 1800⟩).1 = 4 ∧
    (rankingPriority ⟨2, "B", none, none, 3, 2100, none, 2075, 2017, 0⟩).1 = 3 ∧
    backendOrder
        [⟨some 1800, some 1800, some 1800, some 1800, 4⟩,
         ⟨some 2100, some 2050, some 1900, none, 3⟩] =
      [⟨some 2100, some 2050, some 1900, none, 3⟩,
       ⟨some 1800, some 1800, some 1800, some 1800, 4⟩] := by
  decide

/-- C1 (amended): the legacy db.py ranking order is cascading by tier as
claimed: the first component of _ranking_priority is exactly the largest
N in 4,3,2,1 with at least N valid results and positive best_N (0
otherwise), a higher tier always wins the lexicographic comparison, and
within one tier players compare by the best_N of that tier. The backend
service (_sort_key) instead orders lexicographically by best_1, best_2,
best_3, best_4, tournaments_played with nulls as 0, so there a higher
best_1 dominates regardless of tier. -/
theorem c1_cascading :
    (∀ r : RankingRecord, isTier r (rankingPriority r).1) ∧
    (∀ r : RankingRecord, (rankingPriority r).2.1 = bestN r (rankingPriority r).1) ∧
    (∀ a b : RankingRecord, (rankingPriority a).1 < (rankingPriority b).1 →
      ltKey3 (rankingPriority a) (rankingPriority b) = true) ∧
    (∀ a b : RankingRecord, (rankingPriority a).1 = (rankingPriority b).1 →
      bestN a (rankingPriority a).1 < bestN b (rankingPriority b).1 →
      ltKey3 (rankingPriority a) (rankingPriority b) = true) ∧
    (∀ a b : BRank, a.best_1.getD 0 < b.best_1.getD 0 →
      ltKey5 (sortKey a) (sortKey b) = true) := by
  refine ⟨rankingPriority_fst_isTier, rankingPriority_snd_bestN, ?_, ?_, ?_⟩
  · intro a b h
    simp [ltKey3, h]
  · intro a b h1 h2
    have ea := rankingPriority_snd_bestN a
    have eb := rankingPriority_snd_bestN b
    have hlt : (rankingPriority a).2.1 < (rankingPriority b).2.1 := by
      rw [ea, eb, h1]; rw [h1] at h2; exact h2
    simp [ltKey3, h1, hlt]
  · intro a b h
    simp [ltKey5, sortKey, h]

/-- C1 witness: the tier-dominance conjunct applied to the two concrete
records of the counterexample under the db.py priority. -/
theorem c1_witness :
    ltKey3 (rankingPriority ⟨2, "B", none, none, 3, 2100, none, 2075, 2017, 0⟩)
      (rankingPriority ⟨1, "A", none, none, 4, 1800, none, 1800, 1800, 1800⟩) = true :=
  c1_cascading.2.2.1 ⟨2, "B", none, none, 3, 2100, none, 2075, 2017, 0⟩
    ⟨1, "A", none, none, 4, 1800, none, 1800, 1800, 1800⟩ (by decide)

/-- C2 counterexample: a player with four valid results whose TPRs are
all zero has best_4 = 0, and the ranking priority places them in tier 0,
not tier 4; the unconditional tier-4 conclusion of the claim fails. -/
theorem c2_counterexample :
    playerRanking 7
        [⟨some "KEN", some "valid", 0, "P", none, none, "T"⟩,
         ⟨some "KEN", some "valid", 0, "P", none, none, "T"⟩,
         ⟨some "KEN", some "valid", 0, "P", none, none, "T"⟩,
         ⟨some "KEN", some "valid", 0, "P", none, none, "T"⟩] =
      some ⟨7, "P", none, none, 4, 0, some "T", 0, 0, 0⟩ ∧
    4 ≤ (([⟨some "KEN", some "valid", 0, "P", none, none, "T"⟩,
         ⟨some "KEN", some "valid", 0, "P", none, none, "T"⟩,
         ⟨some "KEN", some "valid", 0, "P", none, none, "T"⟩,
         ⟨some "KEN", some "valid", 0, "P", none, none, "T"⟩] :
           List RRow).filter isValidResult).length ∧
    (rankingPriority ⟨7, "P", none, none, 4, 0, some "T", 0, 0, 0⟩).1 ≠ 4 := by
  decide

/-- C2 (amended): for every player with at least four valid results, the
stored best_4 is the mean of the four highest valid TPRs rounded half to
even (hence a nearest integer: its distance to the exact mean is at most
one half), and whenever that stored best_4 is positive the tier of the
player under the ranking priority is 4. -/
theorem c2_best4_amended :
    ∀ (pid : Nat) (results : List RRow) (rec : RankingRecord),
      playerRanking pid results = some rec →
      4 ≤ (results.filter isValidResult).length →
      rec.tournaments_played = (results.filter isValidResult).length ∧
      rec.best_4 =
        pythonRoundDiv
          (sumInts (((sortRowsDesc (results.filter isValidResult)).map
            (fun r => r.tpr)).take 4)) 4 ∧
      2 * |4 * rec.best_4 -
          sumInts (((sortRowsDesc (results.filter isValidResult)).map
            (fun r => r.tpr)).take 4)| ≤ 4 ∧
      (0 < rec.best_4 → (rankingPriority rec).1 = 4) := by
  intro pid results rec hsome h4
  cases hs : sortRowsDesc (results.filter isValidResult) with
  | nil =>
    simp only [playerRanking] at hsome
    rw [hs] at hsome
    cases hsome
  | cons top rest =>
    simp only [playerRanking] at hsome
    rw [hs] at hsome
    injection hsome with hrec
    subst hrec
    refine ⟨rfl, ?_, ?_, ?_⟩
    · show (if 4 ≤ (results.filter isValidResult).length then
          pythonRoundDiv (sumInts (((top :: rest).map (fun r => r.tpr)).take 4)) 4
        else 0) = _
      rw [if_pos h4]
    · show 2 * |4 * (if 4 ≤ (results.filter isValidResult).length then
          pythonRoundDiv (sumInts (((top :: rest).map (fun r => r.tpr)).take 4)) 4
        else 0) - _| ≤ 4
      rw [if_pos h4]
      exact pythonRoundDiv_nearest _ 4 (by norm_num)
    · intro hpos
      unfold rankingPriority
      rw [if_pos ⟨h4, hpos⟩]

/-- C2 witness: the amended theorem applied to a player with four valid
results with TPRs 2000, 1900, 1800, 1700 (mean 1850). -/
theorem c2_witness :
    (rankingPriority ⟨9, "W", none, none, 4, 2000, some "T2", 1950, 1900, 1850⟩).1 = 4 :=
  (c2_best4_amended 9
      [⟨some "KEN", some "valid", 1700, "W", none, none, "T1"⟩,
       ⟨some "KEN", none, 2000, "W", none, none, "T2"⟩,
       ⟨some "KEN", some "valid", 1800, "W", none, none, "T3"⟩,
       ⟨some "KEN", some "valid", 1900, "W", none, none, "T4"⟩]
      ⟨9, "W", none, none, 4, 2000, some "T2", 1950, 1900, 1850⟩
      (by decide) (by decide)).2.2.2 (by decide)

/-- C3: the exclusion filter of the recalculation. A result whose
federation is not KEN, or whose status is walkover, incomplete or
withdrawn, is not valid; a result with absent (null) status and
federation KEN is valid; and removing a non-valid result from the list
of any player leaves the rebuilt ranking records (and hence every best_N,
tournaments_played and the sorted rank order) unchanged. -/
theorem c3_exclusion_filter :
    (∀ r : RRow,
      (r.federation ≠ some "KEN" ∨ r.result_status = some "walkover" ∨
        r.result_status = some "incomplete" ∨ r.result_status = some "withdrawn") →
      isValidResult r = false) ∧
    (∀ r : RRow, r.result_status = none → r.federation = some "KEN" →
      isValidResult r = true) ∧
    (∀ (pre post : List (Nat × List RRow)) (pid : Nat) (l1 l2 : List RRow) (r : RRow),
      isValidResult r = false →
        recalculateRankings (pre ++ (pid, l1 ++ r :: l2) :: post) =
          recalculateRankings (pre ++ (pid, l1 ++ l2) :: post)) ∧
    (∀ (pre post : List (Nat × List RRow)) (pid : Nat) (l1 l2 : List RRow) (r : RRow),
      isValidResult r = false →
        snapshotOrder (recalculateRankings (pre ++ (pid, l1 ++ r :: l2) :: post)) =
          snapshotOrder (recalculateRankings (pre ++ (pid, l1 ++ l2) :: post))) := by
  refine ⟨?_, ?_, recalc_drop_invalid, ?_⟩
  · intro r h
    rcases h with h | h | h | h
    · simp [isValidResult, h]
    · have hn : (normStatus r.result_status == "valid") = false := by rw [h]; rfl
      simp [isValidResult, hn]
    · have hn : (normStatus r.result_status == "valid") = false := by rw [h]; rfl
      simp [isValidResult, hn]
    · have hn : (normStatus r.result_status == "valid") = false := by rw [h]; rfl
      simp [isValidResult, hn]
  · intro r h1 h2
    rw [isValidResult, h1, h2]
    rfl
  · intro pre post pid l1 l2 r hr
    rw [recalc_drop_invalid pre post pid l1 l2 r hr]

/-- C3 witness: the removal conjunct applied to one player holding one
valid result and one walkover result. -/
theorem c3_witness :
    recalculateRankings
        [(1, [⟨some "KEN", some "valid", 1500, "V", none, none, "T"⟩,
              ⟨some "KEN", some "walkover", 2600, "V", none, none, "T"⟩])] =
      recalculateRankings [(1, [⟨some "KEN", some "valid", 1500, "V", none, none, "T"⟩])] :=
  c3_exclusion_filter.2.2.1 [] [] 1
    [⟨some "KEN", some "valid", 1500, "V", none, none, "T"⟩] []
    ⟨some "KEN", some "walkover", 2600, "V", none, none, "T"⟩ (by decide)

/-- C6 counterexample: the two cited implementations disagree, so the
single claimed ladder is not the round-count inference of the program.
On a page whose only signal is repeated Rd.N markers, the backend client
(_extract_round_count) applies the claimed stage two and infers 7, while
the legacy scraper (_get_round_count), which has no Rd.N stage and no
details-row stage, falls through all of its patterns and links to its
default 9. -/
theorem c6_counterexample :
    extractRoundCount
        ⟨"Ranking list after: Rd.1, Rd.2, Rd.7 final".toList, [], []⟩ = 7 ∧
    getRoundCountLegacy
        ⟨none, ["Ranking list after: Rd.1, Rd.2, Rd.7 final".toList], []⟩ = 9 ∧
    (7 : Int) ≠ 9 := by
  decide

/-- C6 (amended): the backend scraper client infers the round count by
the claimed ordered fallback, each later heuristic running only when
every earlier one found nothing: the explicit Final Ranking phrase, then
the maximum guarded Rd-number, then the labelled details-table row, then
the link scan with its fixed default; in particular a page whose text
says Final Ranking after 8 Rounds with navigation links implying 6
infers 8 rounds.  The legacy scraper instead uses its own ordered
fallback: the four patterns (Final Ranking after N Rounds, Ranking
after Round N, Round N, N Rounds) against the title, the same patterns
against the page text nodes, the maximum rd parameter among art=3
links, then the default 9. -/
theorem c6_round_precedence :
    (∀ (p : Page) (n : Nat), finalRankingRounds p.text = some n →
      extractRoundCount p = (n : Int)) ∧
    (∀ (p : Page) (n : Nat), finalRankingRounds p.text = none →
      rdStage p.text = some n → extractRoundCount p = (n : Int)) ∧
    (∀ (p : Page) (k : Int), finalRankingRounds p.text = none →
      rdStage p.text = none → tablesRoundCount p.tables = some k →
      extractRoundCount p = k) ∧
    (∀ p : Page, finalRankingRounds p.text = none → rdStage p.text = none →
      tablesRoundCount p.tables = none →
      extractRoundCount p =
        (if maxLinkRound p.links ≤ 1 then 6 else (maxLinkRound p.links : Int))) ∧
    extractRoundCount
        ⟨"Final Ranking after 8 Rounds".toList, [],
          ["tnr999.aspx?lan=1&art=1&rd=6".toList]⟩ = 8 ∧
    (∀ (p : LegacyPage) (n : Nat), titleStage p = some n →
      getRoundCountLegacy p = n) ∧
    (∀ (p : LegacyPage) (n : Nat), titleStage p = none →
      stringsRound legacyPatterns p.strings = some n → getRoundCountLegacy p = n) ∧
    (∀ (p : LegacyPage) (n : Nat), titleStage p = none →
      stringsRound legacyPatterns p.strings = none →
      legacyLinksRound p.links = some n → getRoundCountLegacy p = n) ∧
    (∀ p : LegacyPage, titleStage p = none →
      stringsRound legacyPatterns p.strings = none →
      legacyLinksRound p.links = none → getRoundCountLegacy p = 9) := by
  refine ⟨?_, ?_, ?_, ?_, by decide, ?_, ?_, ?_, ?_⟩
  · intro p n h
    unfold extractRoundCount
    rw [h]
  · intro p n h1 h2
    unfold extractRoundCount
    rw [h1, h2]
  · intro p k h1 h2 h3
    unfold extractRoundCount
    rw [h1, h2, h3]
  · intro p h1 h2 h3
    unfold extractRoundCount
    rw [h1, h2, h3]
  · intro p n h
    unfold getRoundCountLegacy
    rw [h]
  · intro p n h1 h2
    unfold getRoundCountLegacy
    rw [h1, h2]
  · intro p n h1 h2 h3
    unfold getRoundCountLegacy
    rw [h1, h2, h3]
  · intro p h1 h2 h3
    unfold getRoundCountLegacy
    rw [h1, h2, h3]

/-- C6 witness: the first backend heuristic applied to a concrete page
whose details table and links disagree with the explicit phrase, and the
legacy title stage applied to a concrete legacy page. -/
theorem c6_witness :
    extractRoundCount
        ⟨"Standings. Final Ranking after 7 Rounds (rapid)".toList,
          [[["Number of rounds".toList, "5".toList]]],
          ["x.aspx?rd=4".toList]⟩ = 7 ∧
    getRoundCountLegacy
        ⟨some "Open - Final Ranking after 6 Rounds".toList,
          ["Round 3".toList], ["y?art=3&rd=2".toList]⟩ = 6 := by
  constructor
  · exact c6_round_precedence.1
      ⟨"Standings. Final Ranking after 7 Rounds (rapid)".toList,
        [[["Number of rounds".toList, "5".toList]]],
        ["x.aspx?rd=4".toList]⟩ 7 (by decide)
  · exact c6_round_precedence.2.2.2.2.2.1
      ⟨some "Open - Final Ranking after 6 Rounds".toList,
        ["Round 3".toList], ["y?art=3&rd=2".toList]⟩ 6 (by decide)

/-- C9 counterexample: player 1 is present in the comparison snapshot
with previous rank 2 and current rank 1, yet because they just became
best_4-qualified the code reports no numeric delta and flags them new,
where the claim demands delta = previous minus current = 1. -/
theorem c9_counterexample :
    lookupAssoc
        (getRankChanges
          [[⟨1, 1, some 4, some 1900⟩, ⟨2, 2, some 5, some 2000⟩],
           [⟨1, 2, some 3, none⟩, ⟨2, 1, some 5, some 2000⟩]] 25) 1 =
      some ⟨none, some 2, true⟩ ∧
    (⟨none, some 2, true⟩ : RankChange).rank_change ≠ some ((2 : Int) - 1) := by
  decide

/-- C9 (amended): the comparison snapshot is the most recent prior
snapshot (within the ten most recent) whose top-N signature differs from
the latest, identical ones being skipped; a player absent from it is
flagged new with no numeric delta; a player present in it whose latest
row is best_4-qualified while the prior row has data but is not
best_4-qualified is flagged new with their previous rank and no numeric
delta; every other present player gets delta = previous rank minus
current rank. -/
theorem c9_rank_change_amended :
    (∀ (snapshots : List (List SnapRow)) (topN : Nat) (latest : List SnapRow)
        (pre : List (List SnapRow)) (cand : List SnapRow) (post : List (List SnapRow)),
      snapshots.take 10 = latest :: (pre ++ cand :: post) →
      (∀ s ∈ pre, topSignature topN s = topSignature topN latest) →
      topSignature topN cand ≠ topSignature topN latest →
      getRankChanges snapshots topN = buildChanges topN latest cand) ∧
    (∀ row : SnapRow, changeFor row none = ⟨none, none, true⟩) ∧
    (∀ row prev : SnapRow,
      snapHasBest4 row.tournaments_played row.best_4 = true →
      (prev.tournaments_played.isSome || prev.best_4.isSome) = true →
      snapHasBest4 prev.tournaments_played prev.best_4 = false →
      changeFor row (some prev) = ⟨none, some prev.rank, true⟩) ∧
    (∀ row prev : SnapRow,
      (snapHasBest4 row.tournaments_played row.best_4 &&
        (prev.tournaments_played.isSome || prev.best_4.isSome) &&
        !snapHasBest4 prev.tournaments_played prev.best_4) = false →
      changeFor row (some prev) =
        ⟨some ((prev.rank : Int) - (row.rank : Int)), some prev.rank, false⟩) := by
  refine ⟨?_, fun row => rfl, ?_, ?_⟩
  · intro snapshots topN latest pre cand post htake hpre hneq
    have hpre2 : (pre.find? fun c => topSignature topN c != topSignature topN latest) =
        none :=
      List.find?_eq_none.mpr (fun s hs => by simp [hpre s hs])
    have hcand : ((cand :: post).find?
        fun c => topSignature topN c != topSignature topN latest) = some cand := by
      have hc : (topSignature topN cand != topSignature topN latest) = true := by
        simpa [bne_iff_ne] using hneq
      simp [List.find?_cons, hc]
    unfold getRankChanges
    rw [htake]
    simp [hpre2, hcand]
  · intro row prev h1 h2 h3
    simp [changeFor, h1, h2, h3]
  · intro row prev h
    simp only [changeFor]
    rw [if_neg (by simp [h])]

/-- C9 witness: the snapshot-selection conjunct applied to two concrete
snapshots whose top-N signatures differ. -/
theorem c9_witness :
    getRankChanges [[⟨3, 1, some 4, some 2100⟩], [⟨3, 2, some 4, some 2100⟩]] 10 =
      buildChanges 10 [⟨3, 1, some 4, some 2100⟩] [⟨3, 2, some 4, some 2100⟩] :=
  c9_rank_change_amended.1
    [[⟨3, 1, some 4, some 2100⟩], [⟨3, 2, some 4, some 2100⟩]] 10
    [⟨3, 1, some 4, some 2100⟩] [] [⟨3, 2, some 4, some 2100⟩] [] rfl
    (fun s hs => absurd hs (List.not_mem_nil s)) (by decide)

end GP
